import Mathlib

/-!
Shallow embedding of `figma-image-tool` (`src/main.rs`) in Lean 4, together
with theorems settling a fixed list of claims about its specification.

The program has two pipelines selected by a CLI subcommand:
* Download: list Figma image assets, build one download task per record with a
  URL, run all tasks through `futures::future::try_join_all`.
* Convert: validate the target format, scan the input directory for `.png`
  entries, spawn one tokio task per file gated by a `Semaphore::new(4)`, and
  join them with `future::join_all`.

Strings are modelled by Lean `String` (a wrapper around `List Char`, matching
Rust's `str::replace` over `char` patterns), paths by plain strings with `/` as
separator, and the external collaborators (Figma API client, HTTP transfer,
encoder processes) by abstract outcome values, as the spec directs.
-/

namespace FigmaTool

/-! ## Filename sanitizer (main.rs lines 36-37)

`name.replace(['/', '\\', ':', '*', '?', '"', '<', '>', '|'], "_")`:
`str::replace` with a `[char]` pattern and a one-character replacement maps
every matching character to `_` and keeps every other character. -/

/-- The nine disallowed characters of the `replace` call on main.rs line 37. -/
def disallowedChars : List Char := ['/', '\\', ':', '*', '?', '\"', '<', '>', '|']

/-- Per-character action of the `replace` call: a disallowed character becomes
`_`, any other character is kept. -/
def sanitizeChar (c : Char) : Char := if c ∈ disallowedChars then '_' else c

/-- `sanitized_name` of main.rs lines 36-37: `str::replace` with a char-set
pattern and the one-character replacement `"_"`, i.e. a character map. -/
def sanitizedName (s : String) : String := ⟨s.data.map sanitizeChar⟩

/-! ## Paths

`PathBuf::join` with a relative file-name argument appends the file name after
a separator; sanitized names contain no `/` or `\`, so the argument is always
relative and the model below is faithful for the paths this program builds. -/

/-- `PathBuf::join` for the relative file names this program produces. -/
def pathJoin (dir file : String) : String := dir ++ "/" ++ file

/-! ## Download task construction (main.rs lines 30-56)

`fetch_figma_images` yields tuples `(node_id, image_url, name)` where
`image_url` is a JSON value; `image_url.as_str()` is `Some` for a JSON string
and `None` for `null`.  The `filter_map` on lines 32-56 drops `None` records
and builds, for each record with a URL, one download future targeting
`download_dir.join(format!("{}.png", sanitized_name))`. -/

/-- One record of the asset listing: `(node_id, image_url, name)` with
`image_url.as_str()` already applied (`none` models JSON `null`). -/
structure AssetRecord where
  nodeId : String
  url : Option String
  name : String
deriving DecidableEq, Repr

/-- One download work item: the source URL and the target path computed on
main.rs lines 36-40. -/
structure DownloadTask where
  sourceUrl : String
  targetPath : String
deriving DecidableEq, Repr

/-- The body of the `filter_map` closure (main.rs lines 34-55): a record with
no URL yields no task; a record with a URL yields one task whose target path
is `download_dir/<sanitized name>.png`. -/
def buildDownloadTask (dir : String) (r : AssetRecord) : Option DownloadTask :=
  r.url.map fun u =>
    { sourceUrl := u
      targetPath := pathJoin dir (sanitizedName r.name ++ ".png") }

/-- The `filter_map ... collect` of main.rs lines 32-56. -/
def buildDownloadTasks (dir : String) (records : List AssetRecord) : List DownloadTask :=
  records.filterMap (buildDownloadTask dir)

/-! ## Download run dispatch (main.rs lines 30-64)

`match FigmaImageExtractor::fetch_figma_images().await` has three arms:
`Ok(Some(images))` runs the download batch, `Ok(None)` prints
`"✅ No images found."`, `Err(e)` prints the listing-failure message. -/

/-- Result of the asset-listing call, `Result<Option<Vec<record>>, E>` as
matched on main.rs lines 30-64. -/
inductive ListingResult where
  | ok (images : Option (List AssetRecord))
  | apiError (msg : String)
deriving DecidableEq, Repr

/-- The observable outcome of the Download arm: which branch of the `match`
ran, and (for the task branch) the tasks that were built and launched. -/
inductive DownloadReport where
  | listingFailure (msg : String)
  | noImagesFound
  | ranTasks (tasks : List DownloadTask)
deriving DecidableEq, Repr

/-- The Download arm's dispatch on the listing result (main.rs lines 30-64). -/
def downloadRun (dir : String) (listing : ListingResult) : DownloadReport :=
  match listing with
  | .ok (some records) => .ranTasks (buildDownloadTasks dir records)
  | .ok none => .noImagesFound
  | .apiError m => .listingFailure m

/-- Download tasks actually launched by a run: only the `Ok(Some(_))` branch
reaches the `try_join_all` call. -/
def attemptedTasks : DownloadReport → List DownloadTask
  | .ranTasks ts => ts
  | _ => []

/-! ## Path extension and stem (Rust `Path::extension` / `Path::file_stem`)

For a file name, Rust splits at the final `.`: if there is no `.`, or the only
`.` is leading (hidden files like `.png`), there is no extension and the stem
is the whole name; otherwise the extension is the part after the final `.` and
the stem the part before it.  Comparison `ext == "png"` on main.rs line 94 is
byte equality, hence case-sensitive. -/

/-- Split a reversed character list at its first `.`:
`some (after-dot-reversed, before-dot-reversed)` or `none` if no dot. -/
def revSplitDot : List Char → Option (List Char × List Char)
  | [] => none
  | c :: rest =>
    if c = '.' then some ([], rest)
    else (revSplitDot rest).map fun p => (c :: p.1, p.2)

/-- Split a file name's characters at the final `.`: `some (stem, ext)` when a
dot exists, `none` otherwise. -/
def splitLastDot (cs : List Char) : Option (List Char × List Char) :=
  (revSplitDot cs.reverse).map fun p => (p.2.reverse, p.1.reverse)

/-- Rust `Path::extension` on a plain file name: `none` without an embedded
dot or when the only dot is leading; otherwise the part after the final dot. -/
def extensionOf (fileName : String) : Option String :=
  match splitLastDot fileName.data with
  | none => none
  | some (stem, ext) => if stem = [] then none else some ⟨ext⟩

/-- Rust `Path::file_stem` on a plain file name. -/
def fileStemOf (fileName : String) : Option String :=
  match splitLastDot fileName.data with
  | none => some fileName
  | some (stem, _ext) => if stem = [] then some fileName else some ⟨stem⟩

/-! ## Conversion task construction (main.rs lines 86-119)

`fs::read_dir` yields the immediate entries of the input directory only (it
never descends into subdirectories), so the scan is modelled as a pass over
the list of entry file names.  An entry is selected iff
`path.extension().map_or(false, |ext| ext == "png")`; the output path is
`output_dir.join(format!("{}.{}", file_stem, format))`. -/

/-- One conversion work item as built on main.rs lines 94-100 (the cloned
`format` string is captured per task). -/
structure ConversionTask where
  inputPath : String
  outputPath : String
  format : String
deriving DecidableEq, Repr

/-- Per-entry selection and task construction (main.rs lines 91-117): only
entries whose extension equals `"png"` produce a task. -/
def buildConversionTask (inputDir outputDir format fileName : String) :
    Option ConversionTask :=
  if extensionOf fileName = some "png" then
    some { inputPath := pathJoin inputDir fileName
           outputPath :=
             pathJoin outputDir ((fileStemOf fileName).getD "" ++ "." ++ format)
           format := format }
  else none

/-- The whole `while let Some(entry) = entries.next_entry()` scan: one pass
over the directory's immediate entries. -/
def scanConversionTasks (inputDir outputDir format : String)
    (entries : List String) : List ConversionTask :=
  entries.filterMap (buildConversionTask inputDir outputDir format)

/-! ## Convert run dispatch (main.rs lines 66-131)

In source order: the format check (lines 71-74), the cwebp presence check
(lines 76-79), `create_dir_all(&output_dir)` (lines 81-84), `read_dir`
(line 86), then the scan and the spawned tasks. -/

/-- Abstract environment for one Convert run: whether `cwebp` is installed,
whether `create_dir_all(&output_dir)` succeeds, and the input-directory
listing (`none` models a `read_dir` error). -/
structure ConvertEnv where
  cwebpInstalled : Bool
  createOutputDirOk : Bool
  readInputDir : Option (List String)
deriving DecidableEq, Repr

/-- The observable outcome of the Convert arm: which early-return (if any)
fired, or the tasks that were spawned. -/
inductive ConvertReport where
  | unsupportedFormat (format : String)
  | installationGuide
  | outputDirError
  | readDirError
  | ranTasks (tasks : List ConversionTask)
deriving DecidableEq, Repr

/-- Side effects of one Convert run, in order: the `create_dir_all` call on
the output directory and the spawned conversion tasks. -/
inductive ConvertEffect where
  | invokedCreateOutputDir
  | spawnedTask (t : ConversionTask)
deriving DecidableEq, Repr

/-- The Convert arm's control flow (main.rs lines 66-131), in source order. -/
def convertRun (env : ConvertEnv) (inputDir outputDir format : String) :
    ConvertReport :=
  if format ≠ "webp" ∧ format ≠ "avif" then .unsupportedFormat format
  else if format = "webp" ∧ ¬ env.cwebpInstalled then .installationGuide
  else if ¬ env.createOutputDirOk then .outputDirError
  else
    match env.readInputDir with
    | none => .readDirError
    | some entries => .ranTasks (scanConversionTasks inputDir outputDir format entries)

/-- The side effects the same control flow performs: `create_dir_all` is only
reached after both precondition checks pass, and tasks are only spawned after
it and a successful `read_dir`. -/
def convertEffects (env : ConvertEnv) (inputDir outputDir format : String) :
    List ConvertEffect :=
  if format ≠ "webp" ∧ format ≠ "avif" then []
  else if format = "webp" ∧ ¬ env.cwebpInstalled then []
  else if ¬ env.createOutputDirOk then [.invokedCreateOutputDir]
  else
    match env.readInputDir with
    | none => [.invokedCreateOutputDir]
    | some entries =>
      .invokedCreateOutputDir ::
        (scanConversionTasks inputDir outputDir format entries).map .spawnedTask

/-! ## Per-task format dispatch (main.rs lines 107-111) -/

/-- The two encoder invocations a task can select:
`ImageConverter::convert_to_webp` or `ImageConverter::convert_to_avif`. -/
inductive EncoderChoice where
  | webpEncoder
  | avifEncoder
deriving DecidableEq, Repr

/-- The `match format.as_str()` of main.rs lines 107-111; `none` models the
`unreachable!()` catch-all arm. -/
def formatDispatch (format : String) : Option EncoderChoice :=
  if format = "webp" then some .webpEncoder
  else if format = "avif" then some .avifEncoder
  else none

/-! ## Convert concurrency model (main.rs lines 89-117)

`let semaphore = Arc::new(Semaphore::new(4))` (line 89); each spawned task
runs, in order:

* `let _ = semaphore.acquire().await.unwrap();` (line 105) — `acquire`
  suspends until a permit is free and returns a `SemaphorePermit` guard, but
  the `let _ =` pattern does not bind the guard, so Rust drops it at the end
  of that statement, i.e. the permit is returned to the semaphore BEFORE the
  encoder is invoked;
* the encoder invocation (lines 107-111);
* the result `match` (lines 113-116) and task completion.

This is modelled as a labelled-step system over per-task phases plus the
semaphore's free-permit count.  Acquiring and dropping the guard are separate
micro-steps so that the instant at which the permit is returned is visible. -/

/-- Phase of one spawned conversion task: waiting in `acquire`, holding the
not-yet-dropped `SemaphorePermit` temporary, running the encoder, done. -/
inductive TaskPhase where
  | pending
  | holdingPermit
  | encoding
  | done
deriving DecidableEq, BEq, Repr

/-- Global state of the Convert batch: one phase per spawned task and the
number of free semaphore permits. -/
structure ConvState where
  phases : List TaskPhase
  permits : Nat
deriving DecidableEq, Repr

/-- One scheduler step of the Convert batch, as the code behaves:
`acquire` takes a free permit; the end of the `let _ = ...;` statement drops
the permit guard, restoring the permit, and the task proceeds to its encoder
invocation WITHOUT holding a permit; `finish` ends an encoder invocation. -/
inductive ConvStep : ConvState → ConvState → Prop
  | acquire (s : ConvState) (i : Nat)
      (hp : s.phases.get? i = some .pending) (hperm : 1 ≤ s.permits) :
      ConvStep s ⟨s.phases.set i .holdingPermit, s.permits - 1⟩
  | dropPermit (s : ConvState) (i : Nat)
      (hp : s.phases.get? i = some .holdingPermit) :
      ConvStep s ⟨s.phases.set i .encoding, s.permits + 1⟩
  | finish (s : ConvState) (i : Nat)
      (hp : s.phases.get? i = some .encoding) :
      ConvStep s ⟨s.phases.set i .done, s.permits⟩

/-- States reachable from a given Convert batch state. -/
def ConvReachable : ConvState → ConvState → Prop :=
  Relation.ReflTransGen ConvStep

/-- Initial state of a Convert batch of `n` spawned tasks with the
`Semaphore::new(4)` of main.rs line 89. -/
def convInit (n : Nat) : ConvState :=
  ⟨List.replicate n .pending, 4⟩

/-- Number of tasks currently inside their encoder invocation. -/
def encodingCount (s : ConvState) : Nat :=
  s.phases.count .encoding

/-! ## Download concurrency model (main.rs line 58)

The download futures are not spawned: they are owned by
`future::try_join_all(downloads)`.  `try_join_all` polls all futures
concurrently; if one completes with `Err`, it completes immediately with that
error and drops every unfinished future, cancelling it.  Modelled as a step
system over per-task phases: a task can finish `Ok`; a task can finish `Err`,
which simultaneously cancels every still-running sibling (the join returns at
that instant). -/

/-- Phase of one download future inside `try_join_all`: still being polled,
completed `Ok`, completed `Err`, or dropped unfinished. -/
inductive DlPhase where
  | running
  | ok
  | err
  | cancelled
deriving DecidableEq, BEq, Repr

/-- Drop every still-running future (what `try_join_all` does to the
remaining futures when one of them fails). -/
def cancelRunning (ts : List DlPhase) : List DlPhase :=
  ts.map fun p => if p = .running then .cancelled else p

/-- One step of `try_join_all`: a running future completes `Ok`, or a running
future completes `Err` — in which case the combinator returns and every other
still-running future is dropped in the same step. -/
inductive DlStep : List DlPhase → List DlPhase → Prop
  | finishOk (ts : List DlPhase) (i : Nat) (h : ts.get? i = some .running) :
      DlStep ts (ts.set i .ok)
  | finishErr (ts : List DlPhase) (i : Nat) (h : ts.get? i = some .running) :
      DlStep ts (cancelRunning (ts.set i .err))

/-- Batch phase vectors reachable from a given one. -/
def DlReachable : List DlPhase → List DlPhase → Prop :=
  Relation.ReflTransGen DlStep

/-! ## Convert result aggregation (main.rs lines 104-127)

Each conversion task is `tokio::spawn`ed; the closure `match`es the encoder
result, prints a per-task line, and returns `()` in BOTH arms (lines 113-116).
`future::join_all(conversion_tasks)` therefore yields
`Vec<Result<(), JoinError>>`, and `collect::<Result<Vec<_>, _>>()` is `Err`
only when some task's `JoinHandle` reports a `JoinError` (panic or abort) —
an encoder failure is not one.  The only potential panics in the closure are
`acquire().await.unwrap()` (the semaphore is never closed) and the
`unreachable!()` arm (excluded by the format validation), so join results are
modelled as always `Ok(())`. -/

/-- Outcome of one encoder invocation: `Ok(())`, or the error for a non-zero
exit / launch failure. -/
inductive EncodeOutcome where
  | success
  | failure (msg : String)
deriving DecidableEq, Repr

/-- The per-task console line printed by the `match result` on lines 113-116. -/
inductive TaskPrint where
  | converted (inputPath outputPath : String)
  | failedConversion (msg : String)
deriving DecidableEq, Repr

/-- The closure's `match result` (lines 113-116): print the per-task line. -/
def taskPrint (t : ConversionTask) : EncodeOutcome → TaskPrint
  | .success => .converted t.inputPath t.outputPath
  | .failure m => .failedConversion m

/-- The value a task's `JoinHandle` resolves to: the closure returns `()` in
both `match` arms, so joining yields `Ok(())` for every encoder outcome. -/
def taskJoinResult (_r : EncodeOutcome) : Except String Unit := .ok ()

/-- `collect::<Result<Vec<_>, _>>()` over the joined task results
(lines 121-124): the first `Err`, if any, else `Ok` of all values. -/
def collectResults : List (Except String Unit) → Except String (List Unit)
  | [] => .ok []
  | .error e :: _ => .error e
  | .ok v :: rest => (collectResults rest).map fun vs => v :: vs

/-- Run a Convert batch to completion: `join_all` awaits every task, so every
task's per-task line is printed; then the aggregate message
(`"Some conversions failed"`) is printed iff the collect is `Err`. -/
def runConversionBatch (batch : List (ConversionTask × EncodeOutcome)) :
    List TaskPrint × Option String :=
  ( batch.map fun p => taskPrint p.1 p.2
  , match collectResults (batch.map fun p => taskJoinResult p.2) with
    | .error e => some e
    | .ok _ => none )

/-! ## Sanitizer lemmas -/

theorem underscore_not_disallowed : '_' ∉ disallowedChars := by decide

theorem sanitizeChar_eq_self {c : Char} (h : c ∉ disallowedChars) :
    sanitizeChar c = c := if_neg h

theorem sanitizeChar_not_disallowed (c : Char) : sanitizeChar c ∉ disallowedChars := by
  unfold sanitizeChar
  split
  · exact underscore_not_disallowed
  · assumption

theorem sanitizeChar_idem (c : Char) : sanitizeChar (sanitizeChar c) = sanitizeChar c :=
  sanitizeChar_eq_self (sanitizeChar_not_disallowed c)

/-- C8: for every input string, the sanitizer keeps the length, maps each
position's character to `_` when it is one of the nine disallowed characters
and to itself otherwise, and its output contains no disallowed character. -/
theorem figma_C8_sanitizer_pointwise (s : String) :
    (sanitizedName s).data.length = s.data.length ∧
    (∀ i : Nat, (sanitizedName s).data.get? i =
      (s.data.get? i).map fun c => if c ∈ disallowedChars then '_' else c) ∧
    (∀ c, c ∈ (sanitizedName s).data → c ∉ disallowedChars) := by
  refine ⟨by simp [sanitizedName], fun i => ?_, fun c hc => ?_⟩
  · simp only [sanitizedName, List.get?_map]
    rfl
  · simp only [sanitizedName, List.mem_map] at hc
    obtain ⟨a, -, ha⟩ := hc
    exact ha ▸ sanitizeChar_not_disallowed a

/-- C8 witness: the sanitizer theorem applied to the concrete name `A/B`. -/
theorem figma_C8_sanitizer_pointwise_witness : ('_' : Char) ∉ disallowedChars :=
  (figma_C8_sanitizer_pointwise "A/B").2.2 '_' (by decide)

/-- C9: sanitizing twice equals sanitizing once, and a string free of the
disallowed characters is returned unchanged. -/
theorem figma_C9_sanitizer_idempotent (s : String) :
    sanitizedName (sanitizedName s) = sanitizedName s ∧
    ((∀ c, c ∈ s.data → c ∉ disallowedChars) → sanitizedName s = s) := by
  constructor
  · show String.mk ((s.data.map sanitizeChar).map sanitizeChar) =
      String.mk (s.data.map sanitizeChar)
    refine congrArg String.mk ?_
    rw [List.map_map]
    exact List.map_congr_left fun a _ => sanitizeChar_idem a
  · intro h
    cases s with
    | mk data =>
      show String.mk _ = String.mk _
      refine congrArg String.mk ?_
      calc data.map sanitizeChar = data.map id :=
             List.map_congr_left fun a ha => sanitizeChar_eq_self (h a ha)
        _ = data := List.map_id data

/-- C9 witness: the idempotence theorem applied to concrete names. -/
theorem figma_C9_sanitizer_idempotent_witness :
    sanitizedName (sanitizedName "A/B") = sanitizedName "A/B" ∧
    sanitizedName "plain_name" = "plain_name" :=
  ⟨(figma_C9_sanitizer_idempotent "A/B").1,
   (figma_C9_sanitizer_idempotent "plain_name").2 (by decide)⟩

/-- C5: a record without a URL yields no task; a record with a URL yields
exactly one task targeting `dir/<sanitized name>.png`; the task count equals
the count of records with a URL; and the spec's concrete listing yields
exactly one task targeting `dir/A_B.png`. -/
theorem figma_C5_download_task_construction (dir id name u : String)
    (rest : List AssetRecord) :
    buildDownloadTasks dir ({ nodeId := id, url := none, name := name } :: rest) =
      buildDownloadTasks dir rest ∧
    buildDownloadTasks dir ({ nodeId := id, url := some u, name := name } :: rest) =
      { sourceUrl := u, targetPath := pathJoin dir (sanitizedName name ++ ".png") } ::
        buildDownloadTasks dir rest ∧
    (∀ records : List AssetRecord,
      (buildDownloadTasks dir records).length =
        (records.filter fun r => r.url.isSome).length) ∧
    buildDownloadTasks "dir"
        [{ nodeId := "1", url := some "http://x/1.png", name := "A/B" },
         { nodeId := "2", url := none, name := "C" }] =
      [{ sourceUrl := "http://x/1.png", targetPath := "dir/A_B.png" }] := by
  refine ⟨?_, ?_, fun records => ?_, by decide⟩
  · simp [buildDownloadTasks, buildDownloadTask]
  · simp [buildDownloadTasks, buildDownloadTask]
  · induction records with
    | nil => rfl
    | cons r rs ih =>
      cases hr : r.url with
      | none => simpa [buildDownloadTasks, buildDownloadTask, hr] using ih
      | some v => simpa [buildDownloadTasks, buildDownloadTask, hr] using ih

/-- C4: the Convert arm's precondition checks run before any work: an
unsupported format returns with the unsupported-format error and no side
effect (no `create_dir_all`, no task), and format `webp` with `cwebp` absent
returns with the installation guide and no side effect. -/
theorem figma_C4_preconditions (env : ConvertEnv) (inputDir outputDir format : String) :
    (format ≠ "webp" → format ≠ "avif" →
      convertRun env inputDir outputDir format = .unsupportedFormat format ∧
      convertEffects env inputDir outputDir format = []) ∧
    (¬ env.cwebpInstalled →
      convertRun env inputDir outputDir "webp" = .installationGuide ∧
      convertEffects env inputDir outputDir "webp" = []) := by
  constructor
  · intro h1 h2
    constructor
    · unfold convertRun
      rw [if_pos ⟨h1, h2⟩]
    · unfold convertEffects
      rw [if_pos ⟨h1, h2⟩]
  · intro h
    constructor
    · unfold convertRun
      rw [if_neg (by simp), if_pos ⟨rfl, h⟩]
    · unfold convertEffects
      rw [if_neg (by simp), if_pos ⟨rfl, h⟩]

/-- C4 witness: the precondition theorem at format `bmp` and at `webp` with
the encoder absent. -/
theorem figma_C4_preconditions_witness :
    convertRun ⟨false, true, some []⟩ "in" "out" "bmp" = .unsupportedFormat "bmp" ∧
    convertEffects ⟨false, true, some []⟩ "in" "out" "bmp" = [] ∧
    convertRun ⟨false, true, some []⟩ "in" "out" "webp" = .installationGuide ∧
    convertEffects ⟨false, true, some []⟩ "in" "out" "webp" = [] := by
  have h := figma_C4_preconditions ⟨false, true, some []⟩ "in" "out" "bmp"
  have h1 := h.1 (by decide) (by decide)
  have h2 := h.2 (by decide)
  exact ⟨h1.1, h1.2, h2.1, h2.2⟩

/-- C6 counterexample: a successful listing whose single record has no URL is
a success with zero usable records, yet the run does not report the distinct
no-images-found outcome — it silently runs an empty batch. -/
theorem figma_C6_counterexample :
    downloadRun "dir" (.ok (some [{ nodeId := "2", url := none, name := "C" }])) =
      .ranTasks [] ∧
    DownloadReport.ranTasks [] ≠ DownloadReport.noImagesFound := by decide

/-- C6 amended: a failed listing runs zero tasks and reports the listing
failure; the distinct no-images-found outcome is reported exactly when the
listing returns `Ok(None)`; a successful listing whose records all lack URLs
silently runs an empty batch with no distinct report. -/
theorem figma_C6_amended (dir : String) :
    (∀ m, downloadRun dir (.apiError m) = .listingFailure m ∧
      attemptedTasks (downloadRun dir (.apiError m)) = []) ∧
    downloadRun dir (.ok none) = .noImagesFound ∧
    (∀ m, DownloadReport.noImagesFound ≠ DownloadReport.listingFailure m) ∧
    (∀ records : List AssetRecord, (∀ r ∈ records, r.url = none) →
      downloadRun dir (.ok (some records)) = .ranTasks []) := by
  refine ⟨fun m => ⟨rfl, rfl⟩, rfl, fun m h => DownloadReport.noConfusion h,
    fun records hrec => ?_⟩
  show DownloadReport.ranTasks (buildDownloadTasks dir records) = .ranTasks []
  refine congrArg DownloadReport.ranTasks ?_
  induction records with
  | nil => rfl
  | cons r rs ih =>
    have hr : r.url = none := hrec r (List.mem_cons_self r rs)
    have hrest := ih fun r' h' => hrec r' (List.mem_cons_of_mem r h')
    simpa [buildDownloadTasks, buildDownloadTask, hr] using hrest

/-- C6 amended witness: the dispatch theorem at a failed listing, at
`Ok(None)`, and at a successful listing with one URL-less record. -/
theorem figma_C6_amended_witness :
    downloadRun "dir" (.apiError "boom") = .listingFailure "boom" ∧
    downloadRun "dir" (.ok none) = .noImagesFound ∧
    downloadRun "dir" (.ok (some [{ nodeId := "7", url := none, name := "D" }])) =
      .ranTasks [] := by
  have h := figma_C6_amended "dir"
  exact ⟨(h.1 "boom").1, h.2.1,
    h.2.2.2 [{ nodeId := "7", url := none, name := "D" }] (by decide)⟩

/-- C7: an entry is selected iff its extension is exactly `"png"`; a selected
entry's task has the same stem with the extension swapped to the target
format, inside the output directory; the spec's concrete directory produces
exactly the two expected tasks and ignores `readme.txt`; and the comparison
is case-sensitive (`photo.PNG` has extension `PNG` yet is not selected). -/
theorem figma_C7_directory_scan (inputDir outputDir format fileName : String) :
    ((buildConversionTask inputDir outputDir format fileName).isSome ↔
      extensionOf fileName = some "png") ∧
    (∀ stem, fileStemOf fileName = some stem → extensionOf fileName = some "png" →
      buildConversionTask inputDir outputDir format fileName =
        some { inputPath := pathJoin inputDir fileName
               outputPath := pathJoin outputDir (stem ++ "." ++ format)
               format := format }) ∧
    scanConversionTasks "in" "out" "avif" ["icon.png", "logo.png", "readme.txt"] =
      [{ inputPath := "in/icon.png", outputPath := "out/icon.avif", format := "avif" },
       { inputPath := "in/logo.png", outputPath := "out/logo.avif", format := "avif" }] ∧
    extensionOf "photo.PNG" = some "PNG" ∧
    buildConversionTask inputDir outputDir format "photo.PNG" = none := by
  refine ⟨?_, fun stem hstem hext => ?_, by decide, by decide, ?_⟩
  · unfold buildConversionTask
    split
    · simpa
    · simpa
  · unfold buildConversionTask
    rw [if_pos hext, hstem]
    rfl
  · unfold buildConversionTask
    rw [if_neg (by decide)]

/-- C7 witness: the scan theorem applied to the entry `icon.png`. -/
theorem figma_C7_directory_scan_witness :
    buildConversionTask "in" "out" "avif" "icon.png" =
      some { inputPath := pathJoin "in" "icon.png"
             outputPath := pathJoin "out" ("icon" ++ "." ++ "avif")
             format := "avif" } :=
  (figma_C7_directory_scan "in" "out" "avif" "icon.png").2.1 "icon" (by decide) (by decide)

/-- Every task built by the scan carries the format string it was built
with. -/
theorem mem_scanConversionTasks_format {i o f : String} {entries : List String}
    {t : ConversionTask} (ht : t ∈ scanConversionTasks i o f entries) : t.format = f := by
  unfold scanConversionTasks at ht
  rw [List.mem_filterMap] at ht
  obtain ⟨name, -, hb⟩ := ht
  unfold buildConversionTask at hb
  split at hb
  · cases hb
    rfl
  · exact Option.noConfusion hb

/-- A Convert run reaches the task-spawning branch only with a validated
format, and its task list is the directory scan for that format. -/
theorem convertRun_ranTasks_inv {env : ConvertEnv} {i o f : String}
    {ts : List ConversionTask} (h : convertRun env i o f = .ranTasks ts) :
    (f = "webp" ∨ f = "avif") ∧
    ∃ entries, env.readInputDir = some entries ∧
      ts = scanConversionTasks i o f entries := by
  unfold convertRun at h
  by_cases h1 : f ≠ "webp" ∧ f ≠ "avif"
  · rw [if_pos h1] at h
    exact ConvertReport.noConfusion h
  · have hf : f = "webp" ∨ f = "avif" := by
      rcases not_and_or.mp h1 with h' | h'
      · exact Or.inl (not_not.mp h')
      · exact Or.inr (not_not.mp h')
    rw [if_neg h1] at h
    by_cases h2 : f = "webp" ∧ ¬ env.cwebpInstalled
    · rw [if_pos h2] at h
      exact ConvertReport.noConfusion h
    · rw [if_neg h2] at h
      by_cases h3 : ¬ env.createOutputDirOk
      · rw [if_pos h3] at h
        exact ConvertReport.noConfusion h
      · rw [if_neg h3] at h
        cases hread : env.readInputDir with
        | none =>
          rw [hread] at h
          exact ConvertReport.noConfusion h
        | some entries =>
          rw [hread] at h
          injection h with h'
          exact ⟨hf, entries, rfl, h'.symm⟩

/-- C10: whenever a Convert run spawns tasks, the run's format — and the
format captured by every spawned task — selects one of the two encoder
branches, so the `unreachable!()` arm of the dispatch is never taken. -/
theorem figma_C10_dispatch_total (env : ConvertEnv) (inputDir outputDir format : String)
    (ts : List ConversionTask)
    (h : convertRun env inputDir outputDir format = .ranTasks ts) :
    (formatDispatch format).isSome ∧
    ∀ t ∈ ts, (formatDispatch t.format).isSome := by
  obtain ⟨hf, entries, -, hts⟩ := convertRun_ranTasks_inv h
  have hd : (formatDispatch format).isSome := by
    rcases hf with h' | h' <;> simp [formatDispatch, h']
  refine ⟨hd, fun t ht => ?_⟩
  have hformat : t.format = format := mem_scanConversionTasks_format (hts ▸ ht)
  rw [hformat]
  exact hd

/-- C10 witness: the dispatch theorem for a concrete run that spawns one
`avif` task. -/
theorem figma_C10_dispatch_total_witness :
    (formatDispatch "avif").isSome ∧
    ∀ t ∈ scanConversionTasks "in" "out" "avif" ["icon.png"],
      (formatDispatch t.format).isSome :=
  figma_C10_dispatch_total ⟨true, true, some ["icon.png"]⟩ "in" "out" "avif"
    (scanConversionTasks "in" "out" "avif" ["icon.png"]) (by decide)

/-! ## C1: the concurrency ceiling -/

/-- C1: the claimed ceiling is violated.  Because the permit returned by
`semaphore.acquire().await.unwrap()` on main.rs line 105 is bound to `_`, it
is dropped — and the permit returned to the semaphore — at the end of that
statement, before the encoder is invoked.  With 5 spawned tasks the batch
reaches a state in which all 5 tasks are inside their encoder invocations
simultaneously, exceeding the ceiling of 4. -/
theorem figma_C1_ceiling_violated :
    ∃ s : ConvState, ConvReachable (convInit 5) s ∧ 4 < encodingCount s := by
  refine ⟨⟨[.encoding, .encoding, .encoding, .encoding, .encoding], 4⟩, ?_, by decide⟩
  have t1 : ConvStep ⟨[.pending, .pending, .pending, .pending, .pending], 4⟩
      ⟨[.holdingPermit, .pending, .pending, .pending, .pending], 3⟩ :=
    ConvStep.acquire _ 0 rfl (by decide)
  have t2 : ConvStep ⟨[.holdingPermit, .pending, .pending, .pending, .pending], 3⟩
      ⟨[.encoding, .pending, .pending, .pending, .pending], 4⟩ :=
    ConvStep.dropPermit _ 0 rfl
  have t3 : ConvStep ⟨[.encoding, .pending, .pending, .pending, .pending], 4⟩
      ⟨[.encoding, .holdingPermit, .pending, .pending, .pending], 3⟩ :=
    ConvStep.acquire _ 1 rfl (by decide)
  have t4 : ConvStep ⟨[.encoding, .holdingPermit, .pending, .pending, .pending], 3⟩
      ⟨[.encoding, .encoding, .pending, .pending, .pending], 4⟩ :=
    ConvStep.dropPermit _ 1 rfl
  have t5 : ConvStep ⟨[.encoding, .encoding, .pending, .pending, .pending], 4⟩
      ⟨[.encoding, .encoding, .holdingPermit, .pending, .pending], 3⟩ :=
    ConvStep.acquire _ 2 rfl (by decide)
  have t6 : ConvStep ⟨[.encoding, .encoding, .holdingPermit, .pending, .pending], 3⟩
      ⟨[.encoding, .encoding, .encoding, .pending, .pending], 4⟩ :=
    ConvStep.dropPermit _ 2 rfl
  have t7 : ConvStep ⟨[.encoding, .encoding, .encoding, .pending, .pending], 4⟩
      ⟨[.encoding, .encoding, .encoding, .holdingPermit, .pending], 3⟩ :=
    ConvStep.acquire _ 3 rfl (by decide)
  have t8 : ConvStep ⟨[.encoding, .encoding, .encoding, .holdingPermit, .pending], 3⟩
      ⟨[.encoding, .encoding, .encoding, .encoding, .pending], 4⟩ :=
    ConvStep.dropPermit _ 3 rfl
  have t9 : ConvStep ⟨[.encoding, .encoding, .encoding, .encoding, .pending], 4⟩
      ⟨[.encoding, .encoding, .encoding, .encoding, .holdingPermit], 3⟩ :=
    ConvStep.acquire _ 4 rfl (by decide)
  have t10 : ConvStep ⟨[.encoding, .encoding, .encoding, .encoding, .holdingPermit], 3⟩
      ⟨[.encoding, .encoding, .encoding, .encoding, .encoding], 4⟩ :=
    ConvStep.dropPermit _ 4 rfl
  exact Relation.ReflTransGen.head t1 (Relation.ReflTransGen.head t2
    (Relation.ReflTransGen.head t3 (Relation.ReflTransGen.head t4
      (Relation.ReflTransGen.head t5 (Relation.ReflTransGen.head t6
        (Relation.ReflTransGen.head t7 (Relation.ReflTransGen.head t8
          (Relation.ReflTransGen.head t9 (Relation.ReflTransGen.single t10)))))))))

/-! ## C2: try_join_all semantics -/

/-- C2 counterexample: with two download futures still being polled by
`try_join_all`, the step in which one fails drops the other unfinished —
the sibling ends `cancelled`, which is neither completion outcome. -/
theorem figma_C2_counterexample :
    DlStep [DlPhase.running, DlPhase.running] [DlPhase.err, DlPhase.cancelled] ∧
    DlPhase.cancelled ≠ DlPhase.ok ∧ DlPhase.cancelled ≠ DlPhase.err := by
  refine ⟨?_, by decide, by decide⟩
  exact DlStep.finishErr [DlPhase.running, DlPhase.running] 0 rfl

/-- After `try_join_all` has returned on a failure, no position is still
running. -/
theorem cancelRunning_not_running (l : List DlPhase) (k : Nat) :
    (cancelRunning l).get? k ≠ some .running := by
  unfold cancelRunning
  rw [List.get?_map]
  cases hl : l.get? k with
  | none => simp
  | some p =>
    by_cases hp : p = .running
    · simp [hp]
    · simp [hp]

/-- C2 amended: `try_join_all` is fail-fast.  Whenever one of the download
futures fails, that failure step is enabled, it records the failing task's
error, every still-running sibling is dropped (`cancelled`) in the same
instant, and no task takes any further step afterwards — so tasks do not all
run to completion when one fails. -/
theorem figma_C2_amended (ts : List DlPhase) (i : Nat)
    (h : ts.get? i = some .running) :
    DlStep ts (cancelRunning (ts.set i .err)) ∧
    (cancelRunning (ts.set i .err)).get? i = some .err ∧
    (∀ j, j ≠ i → ts.get? j = some .running →
      (cancelRunning (ts.set i .err)).get? j = some .cancelled) ∧
    ∀ ts', ¬ DlStep (cancelRunning (ts.set i .err)) ts' := by
  refine ⟨DlStep.finishErr ts i h, ?_, fun j hj hrun => ?_, fun ts' hstep => ?_⟩
  · obtain ⟨hi, -⟩ := List.get?_eq_some.mp h
    unfold cancelRunning
    rw [List.get?_map, List.get?_set_of_lt _ _ hi, if_pos rfl]
    rfl
  · obtain ⟨hjlen, -⟩ := List.get?_eq_some.mp hrun
    unfold cancelRunning
    rw [List.get?_map, List.get?_set_of_lt _ _ hjlen, if_neg fun hij => hj hij.symm,
      hrun]
    rfl
  · cases hstep with
    | finishOk k hk => exact cancelRunning_not_running _ k hk
    | finishErr k hk => exact cancelRunning_not_running _ k hk

/-- C2 amended witness: the fail-fast theorem applied to a concrete batch of
two running futures, the first of which fails: the second is dropped. -/
theorem figma_C2_amended_witness :
    DlStep [DlPhase.running, DlPhase.running]
      (cancelRunning ([DlPhase.running, DlPhase.running].set 0 DlPhase.err)) ∧
    (cancelRunning ([DlPhase.running, DlPhase.running].set 0 DlPhase.err)).get? 1 =
      some DlPhase.cancelled := by
  have h := figma_C2_amended [DlPhase.running, DlPhase.running] 0 rfl
  exact ⟨h.1, h.2.2.1 1 (by decide) rfl⟩

/-! ## C3: result aggregation -/

/-- C3 counterexample: a batch whose single task's encoder fails prints that
task's own failure line, but the aggregate `collect::<Result<Vec<_>, _>>()`
sees the task's `Ok(())` join value, so the aggregate failure message is not
produced. -/
theorem figma_C3_counterexample :
    (runConversionBatch
      [({ inputPath := "in/a.png", outputPath := "out/a.avif", format := "avif" },
        EncodeOutcome.failure "exit status 1")]).2 = none ∧
    (runConversionBatch
      [({ inputPath := "in/a.png", outputPath := "out/a.avif", format := "avif" },
        EncodeOutcome.failure "exit status 1")]).1 =
      [TaskPrint.failedConversion "exit status 1"] := by decide

/-- Joining the spawned conversion tasks always collects successfully: the
closure returns `()` whatever the encoder outcome. -/
theorem collectResults_joinResults (batch : List (ConversionTask × EncodeOutcome)) :
    collectResults (batch.map fun p => taskJoinResult p.2) =
      .ok (batch.map fun _ => ()) := by
  induction batch with
  | nil => rfl
  | cons p rest ih =>
    show (collectResults (rest.map fun q => taskJoinResult q.2)).map
        (fun vs => () :: vs) = Except.ok (() :: rest.map fun _ => ())
    rw [ih]
    rfl

/-- C3 amended: `join_all` awaits every spawned task (one per-task line per
task, none aborted early) and each encoder failure is reported by its own
task's line, but the aggregate `"Some conversions failed"` message is only
tied to `JoinError`s (panics), so it is never produced by encoder failures
alone. -/
theorem figma_C3_amended (batch : List (ConversionTask × EncodeOutcome)) :
    (runConversionBatch batch).2 = none ∧
    (runConversionBatch batch).1.length = batch.length ∧
    (∀ t m, (t, EncodeOutcome.failure m) ∈ batch →
      TaskPrint.failedConversion m ∈ (runConversionBatch batch).1) := by
  refine ⟨?_, by simp [runConversionBatch], fun t m hmem => ?_⟩
  · show (match collectResults (batch.map fun p => taskJoinResult p.2) with
      | .error e => some e
      | .ok _ => none) = none
    rw [collectResults_joinResults]
  · show TaskPrint.failedConversion m ∈ batch.map fun p => taskPrint p.1 p.2
    exact List.mem_map.mpr ⟨(t, .failure m), hmem, rfl⟩

/-- C3 amended witness: the aggregation theorem applied to a concrete batch
with one failing and one succeeding task. -/
theorem figma_C3_amended_witness :
    (runConversionBatch
      [({ inputPath := "i", outputPath := "o", format := "avif" },
        EncodeOutcome.failure "boom"),
       ({ inputPath := "i2", outputPath := "o2", format := "avif" },
        EncodeOutcome.success)]).2 = none ∧
    TaskPrint.failedConversion "boom" ∈
      (runConversionBatch
        [({ inputPath := "i", outputPath := "o", format := "avif" },
          EncodeOutcome.failure "boom"),
         ({ inputPath := "i2", outputPath := "o2", format := "avif" },
          EncodeOutcome.success)]).1 := by
  have h := figma_C3_amended
    [({ inputPath := "i", outputPath := "o", format := "avif" },
      EncodeOutcome.failure "boom"),
     ({ inputPath := "i2", outputPath := "o2", format := "avif" },
      EncodeOutcome.success)]
  exact ⟨h.1, h.2.2 ⟨"i", "o", "avif"⟩ "boom" (by decide)⟩

end FigmaTool
